import Mathlib

/-!
Shallow embedding of the `mlops-ex` monitoring pipeline
(`src/monitoring.py`, `src/metrics.py`, `src/drift_detection.py`,
`src/retraining.py`) and verification of its specification claims.

Modelling conventions, shared by every definition below:

* Python floats are modelled as exact rationals (`Rat`).
* ISO-8601 timestamp strings are modelled as natural numbers (seconds):
  the ISO format sorts lexicographically exactly as chronologically, and the
  code only compares timestamps and shifts them by `timedelta`s, so the
  translation is faithful.  Every call of `datetime.now()` becomes an
  explicit `now : Nat` argument.
* Python dicts are association lists in insertion order with distinct keys
  (`Counter` iterates keys in first-encounter order).
* File-backed state (the baseline snapshot, the `jsonl` logs) is passed
  explicitly: a function that reads and possibly rewrites the baseline takes
  and returns an `Option Baseline`.
* A Python call that raises (scipy validation errors, `max()` of an empty
  dict) is modelled with `Option`: `none` is the raised exception.
-/

namespace MLOpsEx

/-- One prediction record (`src/monitoring.py`, dataclass `PredictionLog`). -/
structure PredictionLog where
  timestamp : Nat
  text : String
  sentiment : String
  confidence : Rat
  scores : List (String × Rat)
deriving DecidableEq

/-- Keys of a Python `Counter`/dict in first-encounter order: `seen` holds the
keys already emitted. -/
def dedupFirstAux : List String → List String → List String
  | _, [] => []
  | seen, a :: l =>
    if a ∈ seen then dedupFirstAux seen l else a :: dedupFirstAux (a :: seen) l

/-- The distinct elements of `l` in first-encounter order, as Python
`dict(Counter(l))` lists its keys. -/
def dedupFirst (l : List String) : List String := dedupFirstAux [] l

theorem mem_dedupFirstAux (seen l : List String) (a : String) :
    a ∈ dedupFirstAux seen l ↔ a ∈ l ∧ a ∉ seen := by
  induction l generalizing seen with
  | nil => simp [dedupFirstAux]
  | cons b l ih =>
    by_cases hb : b ∈ seen
    · rw [dedupFirstAux, if_pos hb, ih]
      simp only [List.mem_cons]
      constructor
      · rintro ⟨h1, h2⟩; exact ⟨Or.inr h1, h2⟩
      · rintro ⟨h1 | h1, h2⟩
        · exact absurd (h1 ▸ hb) h2
        · exact ⟨h1, h2⟩
    · rw [dedupFirstAux, if_neg hb]
      simp only [List.mem_cons, ih]
      constructor
      · rintro (rfl | ⟨h1, h2⟩)
        · exact ⟨Or.inl rfl, hb⟩
        · exact ⟨Or.inr h1, fun hc => h2 (Or.inr hc)⟩
      · rintro ⟨rfl | h1, h2⟩
        · exact Or.inl rfl
        · by_cases hab : a = b
          · exact Or.inl hab
          · exact Or.inr ⟨h1, fun hc => (hc.elim hab h2 : False)⟩

theorem mem_dedupFirst (l : List String) (a : String) :
    a ∈ dedupFirst l ↔ a ∈ l := by
  simp [dedupFirst, mem_dedupFirstAux]

theorem nodup_dedupFirstAux (seen l : List String) :
    (dedupFirstAux seen l).Nodup := by
  induction l generalizing seen with
  | nil => simp [dedupFirstAux]
  | cons b l ih =>
    by_cases hb : b ∈ seen
    · rw [dedupFirstAux, if_pos hb]
      exact ih seen
    · rw [dedupFirstAux, if_neg hb]
      refine List.Nodup.cons ?_ (ih (b :: seen))
      intro hc
      exact ((mem_dedupFirstAux _ _ _).1 hc).2 (List.mem_cons_self _ _)

theorem nodup_dedupFirst (l : List String) : (dedupFirst l).Nodup :=
  nodup_dedupFirstAux [] l

/-- Embeds `dedupFirst` is a permutation of Mathlib's `dedup` (which keeps last
occurrences): both are duplicate-free with the same members. -/
theorem dedupFirst_perm_dedup (l : List String) : List.Perm (dedupFirst l) l.dedup := by
  refine (List.perm_ext_iff_of_nodup (nodup_dedupFirst l) l.nodup_dedup).2 ?_
  intro a
  rw [mem_dedupFirst, List.mem_dedup]

/-- Counting each distinct element once recovers the length. -/
theorem sum_count_dedupFirst (l : List String) :
    ((dedupFirst l).map fun s => l.count s).sum = l.length := by
  have hperm : List.Perm ((dedupFirst l).map fun s => l.count s)
      (l.dedup.map fun s => l.count s) := (dedupFirst_perm_dedup l).map _
  rw [hperm.sum_eq, List.sum_map_count_dedup_eq_length]

/-- Point-in-time summary (`src/metrics.py`, dataclass `SentimentMetrics`). -/
structure SentimentMetrics where
  timestamp : Nat
  total_predictions : Nat
  sentiment_distribution : List (String × Nat)
  sentiment_percentages : List (String × Rat)
  average_confidence : Rat
  confidence_by_sentiment : List (String × Rat)
deriving DecidableEq

/-- Embeds `MetricsTracker.calculate_metrics` (`src/metrics.py` lines 44-95). -/
def calculate_metrics (logs : List PredictionLog) (now : Nat) : SentimentMetrics :=
  if logs.isEmpty then
    { timestamp := now
      total_predictions := 0
      sentiment_distribution := []
      sentiment_percentages := []
      average_confidence := 0
      confidence_by_sentiment := [] }
  else
    let sentiments := logs.map (·.sentiment)
    let labels := dedupFirst sentiments
    let dist : List (String × Nat) := labels.map fun s => (s, sentiments.count s)
    let total := logs.length
    { timestamp := now
      total_predictions := total
      sentiment_distribution := dist
      sentiment_percentages := dist.map fun p => (p.1, (p.2 : Rat) / total * 100)
      average_confidence := (logs.map (·.confidence)).sum / total
      confidence_by_sentiment := labels.map fun s =>
        let sl := logs.filter fun lg => lg.sentiment == s
        (s, (sl.map (·.confidence)).sum / sl.length) }

/-- C7: for every non-empty list of records the label percentages produced by
`calculate_metrics` (each `count / total * 100`) sum to 100 within `1e-4`
(in the exact-rational model the sum is exactly 100). -/
theorem C7_percentages_sum_100 (logs : List PredictionLog) (now : Nat)
    (h : logs ≠ []) :
    |((calculate_metrics logs now).sentiment_percentages.map Prod.snd).sum - 100|
      ≤ 1 / 10000 := by
  have hne : logs.isEmpty = false := by
    cases logs with
    | nil => exact absurd rfl h
    | cons a l => rfl
  have hlen : (0 : Rat) < logs.length := by
    cases logs with
    | nil => exact absurd rfl h
    | cons a l => exact_mod_cast Nat.succ_pos l.length
  have hne2 : (logs.length : Rat) ≠ 0 := ne_of_gt hlen
  have hperc : (calculate_metrics logs now).sentiment_percentages =
      (dedupFirst (logs.map (·.sentiment))).map
        fun s => (s, ((logs.map (·.sentiment)).count s : Rat) / logs.length * 100) := by
    simp only [calculate_metrics, hne, Bool.false_eq_true, if_false, List.map_map]
    rfl
  rw [hperc, List.map_map]
  have hmap :
      ((dedupFirst (logs.map (·.sentiment))).map
          (Prod.snd ∘ fun s =>
            (s, ((logs.map (·.sentiment)).count s : Rat) / logs.length * 100))) =
        (dedupFirst (logs.map (·.sentiment))).map
          fun s => (((logs.map (·.sentiment)).count s : Rat)) * (100 / logs.length) := by
    refine List.map_congr_left fun s _ => ?_
    show ((logs.map (·.sentiment)).count s : Rat) / logs.length * 100 = _
    rw [div_mul_eq_mul_div, mul_div_assoc]
  rw [hmap, List.sum_map_mul_right]
  have hcast :
      ((dedupFirst (logs.map (·.sentiment))).map
          fun s => (((logs.map (·.sentiment)).count s : Rat))).sum =
        ((((dedupFirst (logs.map (·.sentiment))).map
          fun s => (logs.map (·.sentiment)).count s).sum : Nat) : Rat) := by
    rw [Nat.cast_list_sum, List.map_map]
    rfl
  rw [hcast, sum_count_dedupFirst, List.length_map]
  have h100 : (logs.length : Rat) * (100 / logs.length) - 100 = 0 := by
    field_simp
  rw [h100]
  norm_num

/-- C7 witness: the theorem applied to one concrete record. -/
theorem C7_percentages_sum_100_witness :
    ([⟨0, "ok", "Positivo", 4/5, [("Positivo", 4/5)]⟩] : List PredictionLog) ≠ [] ∧
      |((calculate_metrics
            [⟨0, "ok", "Positivo", 4/5, [("Positivo", 4/5)]⟩] 0).sentiment_percentages.map
          Prod.snd).sum - 100| ≤ 1 / 10000 :=
  ⟨by decide, C7_percentages_sum_100 _ 0 (by decide)⟩

/-! Part 2: time-windowed aggregation (`src/metrics.py`, `get_metrics_over_time`). -/

/-- Embeds `sorted(logs, key=lambda x: x.timestamp)`: Python `sorted` is stable, and
so is `List.insertionSort`. -/
def sort_by_timestamp (logs : List PredictionLog) : List PredictionLog :=
  List.insertionSort (fun a b => a.timestamp ≤ b.timestamp) logs

/-- The `for log in sorted_logs` loop of `get_metrics_over_time`
(`src/metrics.py` lines 152-177): state is (window start, window end, current
window); when a record lies strictly past the window end, the current window
(when non-empty) is emitted and the window advances by exactly one duration,
then the record joins the (new) current window; the last non-empty window is
emitted at the end. -/
def windowLoop (D now : Nat) :
    Nat → Nat → List PredictionLog → List PredictionLog →
      List (Nat × SentimentMetrics)
  | start, _, cur, [] =>
    if cur.isEmpty then [] else [(start, calculate_metrics cur now)]
  | start, wend, cur, lg :: ls =>
    if lg.timestamp > wend then
      if cur.isEmpty then windowLoop D now wend (wend + D) [lg] ls
      else (start, calculate_metrics cur now) :: windowLoop D now wend (wend + D) [lg] ls
    else windowLoop D now start wend (cur ++ [lg]) ls

/-- Embeds `MetricsTracker.get_metrics_over_time` (`src/metrics.py` lines 128-179):
`timedelta(hours=window_hours)` is `3600 * window_hours` seconds. -/
def get_metrics_over_time (logs : List PredictionLog) (window_hours : Nat)
    (now : Nat) : List (Nat × SentimentMetrics) :=
  match sort_by_timestamp logs with
  | [] => []
  | l0 :: rest =>
    windowLoop (3600 * window_hours) now l0.timestamp
      (l0.timestamp + 3600 * window_hours) [] (l0 :: rest)

/-- Same loop, collecting the raw record groups instead of their summaries;
used to state which record ends up in which window. -/
def windowGroupsLoop (D : Nat) :
    Nat → Nat → List PredictionLog → List PredictionLog →
      List (Nat × List PredictionLog)
  | start, _, cur, [] => if cur.isEmpty then [] else [(start, cur)]
  | start, wend, cur, lg :: ls =>
    if lg.timestamp > wend then
      if cur.isEmpty then windowGroupsLoop D wend (wend + D) [lg] ls
      else (start, cur) :: windowGroupsLoop D wend (wend + D) [lg] ls
    else windowGroupsLoop D start wend (cur ++ [lg]) ls

/-- The record groups underlying `get_metrics_over_time`. -/
def windowGroups (logs : List PredictionLog) (window_hours : Nat) :
    List (Nat × List PredictionLog) :=
  match sort_by_timestamp logs with
  | [] => []
  | l0 :: rest =>
    windowGroupsLoop (3600 * window_hours) l0.timestamp
      (l0.timestamp + 3600 * window_hours) [] (l0 :: rest)

theorem windowLoop_eq_map (D now : Nat) (ls : List PredictionLog) :
    ∀ start wend cur, windowLoop D now start wend cur ls =
      (windowGroupsLoop D start wend cur ls).map
        fun p => (p.1, calculate_metrics p.2 now) := by
  induction ls with
  | nil =>
    intro start wend cur
    by_cases h : cur.isEmpty <;> simp [windowLoop, windowGroupsLoop, h]
  | cons lg ls ih =>
    intro start wend cur
    by_cases h1 : lg.timestamp > wend
    · by_cases h2 : cur.isEmpty <;>
        simp [windowLoop, windowGroupsLoop, h1, h2, ih]
    · simp [windowLoop, windowGroupsLoop, h1, ih]

theorem get_metrics_over_time_eq_groups (logs : List PredictionLog)
    (window_hours now : Nat) :
    get_metrics_over_time logs window_hours now =
      (windowGroups logs window_hours).map
        fun p => (p.1, calculate_metrics p.2 now) := by
  unfold get_metrics_over_time windowGroups
  cases sort_by_timestamp logs with
  | nil => rfl
  | cons l0 rest => exact windowLoop_eq_map _ _ _ _ _ _

/-- Invariant of the window loop, entered with window `[start, start + D]` and
a non-empty current group whose non-first records already fit the window:
the first emitted group starts at `start` and extends the current one; the
emitted groups concatenate to exactly the remaining records; no emitted group
is empty; consecutive window starts differ by exactly `D` and each later
group's first record lies strictly past its own window start (= the previous
window's end); non-first records of every group lie at or before their
window's end. -/
theorem windowGroupsLoop_spec (D : Nat) (ls : List PredictionLog) :
    ∀ start cur, cur ≠ [] →
      (∀ r ∈ cur.tail, r.timestamp ≤ start + D) →
      (∃ ext, (windowGroupsLoop D start (start + D) cur ls).head? =
          some (start, cur ++ ext)) ∧
      ((windowGroupsLoop D start (start + D) cur ls).map Prod.snd).flatten =
          cur ++ ls ∧
      (∀ p ∈ windowGroupsLoop D start (start + D) cur ls, p.2 ≠ []) ∧
      List.Chain' (fun p q : Nat × List PredictionLog =>
          q.1 = p.1 + D ∧ ∀ r ∈ q.2.head?, r.timestamp > q.1)
        (windowGroupsLoop D start (start + D) cur ls) ∧
      (∀ p ∈ windowGroupsLoop D start (start + D) cur ls,
        ∀ r ∈ p.2.tail, r.timestamp ≤ p.1 + D) := by
  induction ls with
  | nil =>
    intro start cur hcur htail
    have hne : cur.isEmpty = false := by
      cases cur with
      | nil => exact absurd rfl hcur
      | cons a l => rfl
    have hunfold : windowGroupsLoop D start (start + D) cur [] = [(start, cur)] := by
      rw [windowGroupsLoop]
      simp [hne]
    rw [hunfold]
    refine ⟨⟨[], by simp⟩, by simp, ?_, List.chain'_singleton _, ?_⟩
    · intro p hp
      have hp2 : p = (start, cur) := by simpa using hp
      subst hp2
      exact hcur
    · intro p hp
      have hp2 : p = (start, cur) := by simpa using hp
      subst hp2
      exact htail
  | cons lg ls ih =>
    intro start cur hcur htail
    have hne : cur.isEmpty = false := by
      cases cur with
      | nil => exact absurd rfl hcur
      | cons a l => rfl
    by_cases h1 : lg.timestamp > start + D
    · have hrec := ih (start + D) [lg] (by simp) (by simp)
      obtain ⟨⟨ext, hhead⟩, hjoin, hnonempty, hchain, hbound⟩ := hrec
      have hunfold : windowGroupsLoop D start (start + D) cur (lg :: ls) =
          (start, cur) :: windowGroupsLoop D (start + D) (start + D + D) [lg] ls := by
        rw [windowGroupsLoop]
        simp [h1, hne]
      rw [hunfold]
      refine ⟨⟨[], by simp⟩, ?_, ?_, ?_, ?_⟩
      · simp only [List.map_cons, List.flatten_cons]
        rw [hjoin]
        simp
      · intro p hp
        rcases List.mem_cons.1 hp with rfl | hp2
        · exact hcur
        · exact hnonempty p hp2
      · refine List.chain'_cons'.2 ⟨?_, hchain⟩
        intro q hq
        have hq2 : q = (start + D, [lg] ++ ext) := by
          rw [hhead] at hq
          simpa [eq_comm, Option.mem_def] using hq
        subst hq2
        refine ⟨rfl, ?_⟩
        intro r hr
        have hr2 : lg = r := by simpa [Option.mem_def] using hr
        subst hr2
        exact h1
      · intro p hp
        rcases List.mem_cons.1 hp with rfl | hp2
        · exact htail
        · exact hbound p hp2
    · have hstep : windowGroupsLoop D start (start + D) cur (lg :: ls) =
          windowGroupsLoop D start (start + D) (cur ++ [lg]) ls := by
        rw [windowGroupsLoop, if_neg h1]
      have htail2 : ∀ r ∈ (cur ++ [lg]).tail, r.timestamp ≤ start + D := by
        cases cur with
        | nil => exact absurd rfl hcur
        | cons a l =>
          intro r hr
          simp only [List.cons_append, List.tail_cons, List.mem_append,
            List.mem_singleton] at hr
          rcases hr with hr | rfl
          · exact htail r (by simpa using hr)
          · exact Nat.le_of_not_lt h1
      have hrec := ih start (cur ++ [lg]) (by simp) htail2
      obtain ⟨⟨ext, hhead⟩, hjoin, hnonempty, hchain, hbound⟩ := hrec
      rw [hstep]
      refine ⟨⟨[lg] ++ ext, by rw [hhead]; simp⟩, ?_, hnonempty, hchain, hbound⟩
      rw [hjoin]
      simp

theorem sort_by_timestamp_ne_nil (logs : List PredictionLog) (h : logs ≠ []) :
    sort_by_timestamp logs ≠ [] := by
  intro hc
  have hperm := List.perm_insertionSort
    (fun a b : PredictionLog => a.timestamp ≤ b.timestamp) logs
  rw [sort_by_timestamp] at hc
  rw [hc] at hperm
  exact h hperm.symm.eq_nil

/-- C2 (amended): for a non-empty record list, `get_metrics_over_time`
summarises the groups produced by the window loop over the records sorted by
timestamp; these groups concatenate to exactly the sorted records, none is
empty, the first window starts at the first record's timestamp, consecutive
window starts differ by exactly one duration, a record opens a new window
exactly when its timestamp strictly exceeds the current window's end (so each
later window's first record lies strictly past that window's start, but not
necessarily inside the window), and every other record of a window lies at or
before the window's end (the right boundary is closed, not half-open). -/
theorem C2_windowing (logs : List PredictionLog) (window_hours now : Nat)
    (h : logs ≠ []) :
    get_metrics_over_time logs window_hours now =
      (windowGroups logs window_hours).map
        (fun p => (p.1, calculate_metrics p.2 now)) ∧
    ((windowGroups logs window_hours).map Prod.snd).flatten =
      sort_by_timestamp logs ∧
    (∀ p ∈ windowGroups logs window_hours, p.2 ≠ []) ∧
    ((windowGroups logs window_hours).map Prod.fst).head? =
      ((sort_by_timestamp logs).head?.map (·.timestamp)) ∧
    List.Chain' (fun p q : Nat × List PredictionLog =>
        q.1 = p.1 + 3600 * window_hours ∧
          ∀ r ∈ q.2.head?, r.timestamp > q.1) (windowGroups logs window_hours) ∧
    (∀ p ∈ windowGroups logs window_hours, ∀ r ∈ p.2.tail,
        r.timestamp ≤ p.1 + 3600 * window_hours) := by
  refine ⟨get_metrics_over_time_eq_groups _ _ _, ?_⟩
  obtain ⟨l0, rest, hs⟩ : ∃ l0 rest, sort_by_timestamp logs = l0 :: rest := by
    cases hsort : sort_by_timestamp logs with
    | nil => exact absurd hsort (sort_by_timestamp_ne_nil logs h)
    | cons a l => exact ⟨a, l, rfl⟩
  have hwg : windowGroups logs window_hours =
      windowGroupsLoop (3600 * window_hours) l0.timestamp
        (l0.timestamp + 3600 * window_hours) [l0] rest := by
    simp only [windowGroups, hs]
    rw [windowGroupsLoop, if_neg (by omega)]
    rfl
  obtain ⟨⟨ext, hhead⟩, hjoin, hnonempty, hchain, hbound⟩ :=
    windowGroupsLoop_spec (3600 * window_hours) rest l0.timestamp [l0]
      (by simp) (by simp)
  rw [hwg, hs]
  refine ⟨by rw [hjoin]; rfl, hnonempty, ?_, hchain, hbound⟩
  rw [List.head?_map, hhead]
  rfl

/-- C2 amended witness: a single record gives a single window starting at its
timestamp. -/
theorem C2_windowing_witness :
    ([⟨0, "a", "A", 1, [("A", 1)]⟩] : List PredictionLog) ≠ [] ∧
    (get_metrics_over_time [⟨0, "a", "A", 1, [("A", 1)]⟩] 1 0 =
      (windowGroups [⟨0, "a", "A", 1, [("A", 1)]⟩] 1).map
        (fun p => (p.1, calculate_metrics p.2 0)) ∧
    ((windowGroups [⟨0, "a", "A", 1, [("A", 1)]⟩] 1).map Prod.snd).flatten =
      sort_by_timestamp [⟨0, "a", "A", 1, [("A", 1)]⟩] ∧
    (∀ p ∈ windowGroups [⟨0, "a", "A", 1, [("A", 1)]⟩] 1, p.2 ≠ []) ∧
    ((windowGroups [⟨0, "a", "A", 1, [("A", 1)]⟩] 1).map Prod.fst).head? =
      ((sort_by_timestamp [⟨0, "a", "A", 1, [("A", 1)]⟩]).head?.map
        (·.timestamp)) ∧
    List.Chain' (fun p q : Nat × List PredictionLog =>
        q.1 = p.1 + 3600 * 1 ∧
          ∀ r ∈ q.2.head?, r.timestamp > q.1)
      (windowGroups [⟨0, "a", "A", 1, [("A", 1)]⟩] 1) ∧
    (∀ p ∈ windowGroups [⟨0, "a", "A", 1, [("A", 1)]⟩] 1, ∀ r ∈ p.2.tail,
        r.timestamp ≤ p.1 + 3600 * 1)) :=
  ⟨by decide, C2_windowing _ 1 0 (by decide)⟩

/-- C2 fails as claimed: with records at 0 s and 9000 s and 1-hour windows the
code emits window starts `[0, 3600]`, placing the second record in the window
`[3600, 7200)` that does not contain its timestamp 9000 (the loop advances
only one window per record instead of finding the first containing window,
which would start at 7200). -/
theorem C2_counterexample :
    (get_metrics_over_time
        [⟨0, "a", "A", 1, [("A", 1)]⟩, ⟨9000, "b", "B", 1, [("B", 1)]⟩]
        1 0).map Prod.fst = [0, 3600] ∧
      ¬ ((3600 : Nat) ≤ 9000 ∧ (9000 : Nat) < 3600 + 3600) :=
  ⟨by decide, by decide⟩

/-! Part 3: the Wasserstein distance (`scipy.stats.wasserstein_distance`) and
the drift detector (`src/drift_detection.py`). -/

/-- Ascending sort of sample values, as `numpy.sort` inside scipy. -/
def sortRat (l : List Rat) : List Rat :=
  List.insertionSort (fun a b : Rat => a ≤ b) l

/-- Number of samples `≤ t`: `np.searchsorted(sorted_values, t, side=right)`. -/
def cdfCount (xs : List Rat) (t : Rat) : Nat :=
  xs.countP fun x => decide (x ≤ t)

/-- Body of scipy's `_cdf_distance` with `p = 1` and uniform weights: the sum
over consecutive pooled sorted values of |F_u − F_v| at the left endpoint
times the gap, which is the 1-Wasserstein distance between the empirical
distributions of the two sample lists. -/
def cdfDistance (u v : List Rat) : Rat :=
  ((sortRat (u ++ v)).zip (sortRat (u ++ v)).tail).foldr
    (fun p acc =>
      |((cdfCount u p.1 : Rat)) / u.length - ((cdfCount v p.1 : Rat)) / v.length|
        * (p.2 - p.1) + acc) 0

/-- Embeds `scipy.stats.wasserstein_distance(u_values, v_values)` (no weights).
scipy's `_validate_distribution` raises `ValueError` on an empty value
array, modelled by `none`. -/
def wasserstein_distance (u v : List Rat) : Option Rat :=
  if u.isEmpty || v.isEmpty then none else some (cdfDistance u v)

/-- Python compares strings by Unicode code point, lexicographically; this is
the order `sorted(all_keys)` uses.  Lean's builtin `String` order is the same
order, but its decision procedure is not kernel-computable, so the embedding
carries its own structural definition over the character lists. -/
def lexLe : List Char → List Char → Bool
  | [], _ => true
  | _ :: _, [] => false
  | a :: as, b :: bs =>
    if a.val.toNat < b.val.toNat then true
    else if b.val.toNat < a.val.toNat then false
    else lexLe as bs

/-- Code-point lexicographic order on strings (Python's `<=` on `str`). -/
def pyStrLe (a b : String) : Bool := lexLe a.data b.data

theorem lexLe_total : ∀ as bs : List Char, lexLe as bs = true ∨ lexLe bs as = true
  | [], [] => Or.inl rfl
  | [], _ :: _ => Or.inl rfl
  | _ :: _, [] => Or.inr rfl
  | a :: as, b :: bs => by
    rcases Nat.lt_trichotomy a.val.toNat b.val.toNat with h | h | h
    · left
      simp [lexLe, h]
    · have h2 : ¬ a.val.toNat < b.val.toNat := by omega
      have h3 : ¬ b.val.toNat < a.val.toNat := by omega
      rcases lexLe_total as bs with ih | ih
      · left
        simp [lexLe, h2, h3, ih]
      · right
        simp [lexLe, h2, h3, ih]
    · right
      simp [lexLe, h]

theorem lexLe_trans : ∀ {as bs cs : List Char},
    lexLe as bs = true → lexLe bs cs = true → lexLe as cs = true
  | [], _, cs, _, _ => by cases cs <;> rfl
  | _ :: _, [], _, h1, _ => by exact absurd h1 (by simp [lexLe])
  | _ :: _, _ :: _, [], _, h2 => by exact absurd h2 (by simp [lexLe])
  | a :: as, b :: bs, c :: cs, h1, h2 => by
    simp only [lexLe] at h1 h2
    by_cases hxy : a.val.toNat < b.val.toNat
    · have hyz : b.val.toNat ≤ c.val.toNat := by
        by_cases hyz1 : b.val.toNat < c.val.toNat
        · omega
        · by_cases hzy : c.val.toNat < b.val.toNat
          · rw [if_neg hyz1, if_pos hzy] at h2
            exact absurd h2 (by decide)
          · omega
      have hxz : a.val.toNat < c.val.toNat := by omega
      simp [lexLe, hxz]
    · by_cases hyx : b.val.toNat < a.val.toNat
      · rw [if_neg hxy, if_pos hyx] at h1
        exact absurd h1 (by decide)
      · rw [if_neg hxy, if_neg hyx] at h1
        by_cases hyz : b.val.toNat < c.val.toNat
        · have hxz : a.val.toNat < c.val.toNat := by omega
          simp [lexLe, hxz]
        · by_cases hzy : c.val.toNat < b.val.toNat
          · rw [if_neg hyz, if_pos hzy] at h2
            exact absurd h2 (by decide)
          · rw [if_neg hyz, if_neg hzy] at h2
            have hxz : ¬ a.val.toNat < c.val.toNat := by omega
            have hzx : ¬ c.val.toNat < a.val.toNat := by omega
            simp only [lexLe, if_neg hxz, if_neg hzx]
            exact lexLe_trans h1 h2

theorem lexLe_antisymm : ∀ {as bs : List Char},
    lexLe as bs = true → lexLe bs as = true → as = bs
  | [], [], _, _ => rfl
  | [], _ :: _, _, h2 => by exact absurd h2 (by simp [lexLe])
  | _ :: _, [], h1, _ => by exact absurd h1 (by simp [lexLe])
  | a :: as, b :: bs, h1, h2 => by
    simp only [lexLe] at h1 h2
    by_cases hxy : a.val.toNat < b.val.toNat
    · have hyx : ¬ b.val.toNat < a.val.toNat := by omega
      rw [if_neg hyx, if_pos hxy] at h2
      exact absurd h2 (by decide)
    · by_cases hyx : b.val.toNat < a.val.toNat
      · rw [if_neg hxy, if_pos hyx] at h1
        exact absurd h1 (by decide)
      · rw [if_neg hxy, if_neg hyx] at h1
        rw [if_neg hyx, if_neg hxy] at h2
        have hchar : a = b := Char.ext (UInt32.ext (by omega))
        rw [hchar, lexLe_antisymm h1 h2]

theorem pyStrLe_total (a b : String) : pyStrLe a b = true ∨ pyStrLe b a = true :=
  lexLe_total a.data b.data

theorem pyStrLe_trans {a b c : String} (h1 : pyStrLe a b = true)
    (h2 : pyStrLe b c = true) : pyStrLe a c = true :=
  lexLe_trans h1 h2

theorem pyStrLe_antisymm {a b : String} (h1 : pyStrLe a b = true)
    (h2 : pyStrLe b a = true) : a = b := by
  have hd : a.data = b.data := lexLe_antisymm h1 h2
  cases a with
  | mk d1 =>
    cases b with
    | mk d2 => exact congrArg String.mk hd

instance : IsTotal String (fun a b => pyStrLe a b = true) := ⟨pyStrLe_total⟩

instance : IsTrans String (fun a b => pyStrLe a b = true) :=
  ⟨fun _ _ _ => pyStrLe_trans⟩

instance : IsAntisymm String (fun a b => pyStrLe a b = true) :=
  ⟨fun _ _ => pyStrLe_antisymm⟩

/-- Embeds `sorted(set(dist1.keys()) | set(dist2.keys()))`
(`src/drift_detection.py` line 112). -/
def sortedKeyUnion (dist1 dist2 : List (String × Rat)) : List String :=
  List.insertionSort (fun a b : String => pyStrLe a b = true)
    (dedupFirst (dist1.map Prod.fst ++ dist2.map Prod.fst))

/-- Embeds `dist.get(k, 0.0)`. -/
def lookupD (d : List (String × Rat)) (k : String) : Rat :=
  (d.lookup k).getD 0

/-- Embeds `DriftDetector._calculate_wasserstein_distance` (lines 96-121): aligns
the two distributions over the lexicographically sorted union of their keys,
filling missing keys with mass 0, passes the two mass vectors to
`wasserstein_distance` as (unweighted) sample values, and clamps the result
with `min(distance, 1.0)`. -/
def calculate_wasserstein_distance (dist1 dist2 : List (String × Rat)) :
    Option Rat :=
  (wasserstein_distance
      ((sortedKeyUnion dist1 dist2).map fun k => lookupD dist1 k)
      ((sortedKeyUnion dist1 dist2).map fun k => lookupD dist2 k)).map
    fun d => min d 1

theorem sortedKeyUnion_comm (d1 d2 : List (String × Rat)) :
    sortedKeyUnion d1 d2 = sortedKeyUnion d2 d1 := by
  unfold sortedKeyUnion
  refine List.eq_of_perm_of_sorted ?_ (List.sorted_insertionSort _ _)
    (List.sorted_insertionSort _ _)
  refine ((List.perm_insertionSort _ _).trans ?_).trans
    (List.perm_insertionSort _ _).symm
  refine (List.perm_ext_iff_of_nodup (nodup_dedupFirst _) (nodup_dedupFirst _)).2 ?_
  intro a
  rw [mem_dedupFirst, mem_dedupFirst, List.mem_append, List.mem_append]
  exact Or.comm

theorem cdfDistance_comm (u v : List Rat) : cdfDistance u v = cdfDistance v u := by
  unfold cdfDistance
  have hall : sortRat (u ++ v) = sortRat (v ++ u) := by
    refine List.eq_of_perm_of_sorted ?_ (List.sorted_insertionSort _ _)
      (List.sorted_insertionSort _ _)
    exact ((List.perm_insertionSort _ _).trans List.perm_append_comm).trans
      (List.perm_insertionSort _ _).symm
  rw [hall]
  induction (sortRat (v ++ u)).zip (sortRat (v ++ u)).tail with
  | nil => rfl
  | cons p ps ih =>
    simp only [List.foldr_cons, ih, abs_sub_comm]

theorem wasserstein_distance_comm (u v : List Rat) :
    wasserstein_distance u v = wasserstein_distance v u := by
  unfold wasserstein_distance
  rw [Bool.or_comm, cdfDistance_comm]

/-- C8: the drift-score function is symmetric in its two distributions. -/
theorem C8_drift_score_symmetric (dist1 dist2 : List (String × Rat)) :
    calculate_wasserstein_distance dist1 dist2 =
      calculate_wasserstein_distance dist2 dist1 := by
  unfold calculate_wasserstein_distance
  rw [sortedKeyUnion_comm, wasserstein_distance_comm]

/-- The persisted baseline snapshot (`set_baseline`, lines 73-78). -/
structure Baseline where
  timestamp : Nat
  distribution : List (String × Rat)
  total_samples : Nat
  average_confidence : Rat
deriving DecidableEq

/-- The percentage map normalized to mass (`{s: pct/100}`), shared by
`set_baseline` (lines 68-71) and `detect_drift` (lines 152-155). -/
def currentDistribution (logs : List PredictionLog) (now : Nat) :
    List (String × Rat) :=
  (calculate_metrics logs now).sentiment_percentages.map fun p => (p.1, p.2 / 100)

/-- Embeds `DriftDetector.set_baseline` (lines 58-81): the snapshot written to the
baseline file. -/
def set_baseline (logs : List PredictionLog) (now : Nat) : Baseline :=
  { timestamp := now
    distribution := currentDistribution logs now
    total_samples := (calculate_metrics logs now).total_predictions
    average_confidence := (calculate_metrics logs now).average_confidence }

/-- Drift evaluation output (`src/drift_detection.py`, dataclass
`DriftReport`). -/
structure DriftReport where
  timestamp : Nat
  drift_detected : Bool
  drift_score : Rat
  drift_threshold : Rat
  baseline_distribution : List (String × Rat)
  current_distribution : List (String × Rat)
  average_confidence_change : Rat
  recommendations : List String
deriving DecidableEq

/-- Embeds `DriftDetector.detect_drift` (lines 123-204).  State passing: the stored
baseline goes in and the possibly-rewritten baseline comes out.  The
recommendation strings keep the source's fixed prefixes; interpolated numbers
are presentation only and are elided.  `baseline.get("average_confidence",
0.5)` always finds the key on a baseline written by `set_baseline`, so it is
read directly from the snapshot. -/
def detect_drift (drift_threshold : Rat) (baseline : Option Baseline)
    (logs : List PredictionLog) (now : Nat) :
    Option (DriftReport × Option Baseline) :=
  match baseline with
  | none =>
    some ({ timestamp := now
            drift_detected := false
            drift_score := 0
            drift_threshold := drift_threshold
            baseline_distribution := []
            current_distribution := []
            average_confidence_change := 0
            recommendations := ["Baseline non trovato, creato con i dati attuali"] },
      if logs.isEmpty then none else some (set_baseline logs now))
  | some b =>
    match calculate_wasserstein_distance b.distribution
        (currentDistribution logs now) with
    | none => none
    | some drift_score =>
      some ({ timestamp := now
              drift_detected := decide (drift_score > drift_threshold)
              drift_score := drift_score
              drift_threshold := drift_threshold
              baseline_distribution := b.distribution
              current_distribution := currentDistribution logs now
              average_confidence_change :=
                (calculate_metrics logs now).average_confidence - b.average_confidence
              recommendations :=
                (if decide (drift_score > drift_threshold) then
                  ["DRIFT RILEVATO",
                   "La distribuzione dei sentiment è cambiata significativamente"]
                 else []) ++
                (if |(calculate_metrics logs now).average_confidence -
                      b.average_confidence| > 1/20 then
                  ["La confidenza media è cambiata"] else []) ++
                (if (calculate_metrics logs now).average_confidence -
                      b.average_confidence < -(1/10) then
                  ["CONSIDERARE IL RETRAINING"] else []) },
        some b)

/-- C4: with no stored baseline and non-empty records, `detect_drift`
bootstraps: it returns the fixed calibration report (score 0, not drifting,
empty distributions, exactly one advisory) and persists the baseline built
from the records. -/
theorem C4_bootstrap_on_first_use (drift_threshold : Rat)
    (logs : List PredictionLog) (now : Nat) (h : logs ≠ []) :
    detect_drift drift_threshold none logs now =
      some ({ timestamp := now
              drift_detected := false
              drift_score := 0
              drift_threshold := drift_threshold
              baseline_distribution := []
              current_distribution := []
              average_confidence_change := 0
              recommendations := ["Baseline non trovato, creato con i dati attuali"] },
        some (set_baseline logs now)) := by
  have hne : logs.isEmpty = false := by
    cases logs with
    | nil => exact absurd rfl h
    | cons a l => rfl
  simp [detect_drift, hne]

/-- C4 witness. -/
theorem C4_bootstrap_on_first_use_witness :
    ([⟨0, "a", "Positivo", 4/5, [("Positivo", 4/5)]⟩] : List PredictionLog) ≠ [] ∧
    detect_drift (3/20) none [⟨0, "a", "Positivo", 4/5, [("Positivo", 4/5)]⟩] 0 =
      some ({ timestamp := 0
              drift_detected := false
              drift_score := 0
              drift_threshold := 3/20
              baseline_distribution := []
              current_distribution := []
              average_confidence_change := 0
              recommendations := ["Baseline non trovato, creato con i dati attuali"] },
        some (set_baseline [⟨0, "a", "Positivo", 4/5, [("Positivo", 4/5)]⟩] 0)) :=
  ⟨by decide, C4_bootstrap_on_first_use (3/20) _ 0 (by decide)⟩

/-- C1: the code evaluated at the claim's own scenario.  With baseline
{A: 1.0} and current {B: 1.0} the aligned mass vectors are [1, 0] and
[0, 1]; scipy receives them as unweighted sample values, and as multisets
they are equal, so the computed drift score is 0 and no drift is flagged —
the claim (and the spec scenario) require score 1.0 and drifting. -/
theorem C1_drift_score_of_disjoint_labels_is_zero :
    (detect_drift (3/20) (some ⟨0, [("A", 1)], 1, 1⟩)
        [⟨0, "b", "B", 1, [("B", 1)]⟩] 0).map
      (fun p => (p.1.drift_score, p.1.drift_detected)) = some (0, false) := by
  norm_num [detect_drift, calculate_wasserstein_distance, wasserstein_distance,
    cdfDistance, cdfCount, sortRat, sortedKeyUnion, lookupD, currentDistribution,
    calculate_metrics, dedupFirst, dedupFirstAux, pyStrLe, lexLe,
    List.insertionSort, List.orderedInsert, List.lookup,
    List.countP_cons, List.countP_nil, Bool.cond_decide,
    (by decide : (Char.val 'A').toNat = 65),
    (by decide : (Char.val 'B').toNat = 66),
    (by decide : ((("B" : String)) == "A") = false),
    (by decide : ((("A" : String)) == "B") = false),
    (by decide : ((("A" : String)) == "A") = true),
    (by decide : ((("B" : String)) == "B") = true),
    (by decide : ¬ ("B" : String) = "A"),
    (by decide : ¬ ("A" : String) = "B")]

theorem sentiment_percentages_ne_nil (logs : List PredictionLog) (now : Nat)
    (h : logs ≠ []) :
    (calculate_metrics logs now).sentiment_percentages ≠ [] := by
  cases logs with
  | nil => exact absurd rfl h
  | cons a l =>
    intro hc
    have hmem : a.sentiment ∈ dedupFirst ((a :: l).map (·.sentiment)) :=
      (mem_dedupFirst _ _).2 (by simp)
    have hne : (a :: l).isEmpty = false := rfl
    simp only [calculate_metrics, hne, Bool.false_eq_true, if_false,
      List.map_map, List.map_eq_nil_iff] at hc
    rw [hc] at hmem
    exact absurd hmem (List.not_mem_nil _)

theorem currentDistribution_ne_nil (logs : List PredictionLog) (now : Nat)
    (h : logs ≠ []) : currentDistribution logs now ≠ [] := by
  intro hc
  rw [currentDistribution, List.map_eq_nil_iff] at hc
  exact sentiment_percentages_ne_nil logs now h hc

theorem sortedKeyUnion_ne_nil (d1 d2 : List (String × Rat))
    (h : d1 ≠ [] ∨ d2 ≠ []) : sortedKeyUnion d1 d2 ≠ [] := by
  intro hc
  have hperm := List.perm_insertionSort (fun a b : String => pyStrLe a b = true)
    (dedupFirst (d1.map Prod.fst ++ d2.map Prod.fst))
  rw [sortedKeyUnion] at hc
  rw [hc] at hperm
  have hd : dedupFirst (d1.map Prod.fst ++ d2.map Prod.fst) = [] :=
    hperm.symm.eq_nil
  rcases h with h1 | h1
  · cases d1 with
    | nil => exact h1 rfl
    | cons p t =>
      have hmem : p.1 ∈ dedupFirst ((p :: t).map Prod.fst ++ d2.map Prod.fst) :=
        (mem_dedupFirst _ _).2 (by simp)
      rw [hd] at hmem
      exact absurd hmem (List.not_mem_nil _)
  · cases d2 with
    | nil => exact h1 rfl
    | cons p t =>
      have hmem : p.1 ∈ dedupFirst (d1.map Prod.fst ++ (p :: t).map Prod.fst) :=
        (mem_dedupFirst _ _).2 (by simp)
      rw [hd] at hmem
      exact absurd hmem (List.not_mem_nil _)

theorem calculate_wasserstein_isSome (d1 d2 : List (String × Rat))
    (h : d1 ≠ [] ∨ d2 ≠ []) : (calculate_wasserstein_distance d1 d2).isSome := by
  unfold calculate_wasserstein_distance wasserstein_distance
  cases hK : sortedKeyUnion d1 d2 with
  | nil => exact absurd hK (sortedKeyUnion_ne_nil d1 d2 h)
  | cons k ks => simp

/-- C10 fails as claimed: with a persisted baseline whose distribution is
empty (as `set_baseline([])` writes) and an empty record list, the key union
is empty, both aligned value vectors are empty, and scipy raises
`ValueError` (modelled by `none`) instead of returning a report. -/
theorem C10_counterexample :
    detect_drift (3/20) (some ⟨0, [], 0, 0⟩) ([] : List PredictionLog) 0 =
      none := by
  rfl

/-- C10 (amended): whenever a baseline exists, `detect_drift` returns a
report for every record list, except in the single corner where both the
stored baseline distribution and the record list are empty (there the
Wasserstein call rejects its empty inputs and the evaluation raises). -/
theorem C10_detect_drift_total (dt : Rat) (b : Baseline)
    (logs : List PredictionLog) (now : Nat)
    (h : b.distribution ≠ [] ∨ logs ≠ []) :
    (detect_drift dt (some b) logs now).isSome := by
  have hcw : (calculate_wasserstein_distance b.distribution
      (currentDistribution logs now)).isSome := by
    refine calculate_wasserstein_isSome _ _ ?_
    rcases h with h1 | h1
    · exact Or.inl h1
    · exact Or.inr (currentDistribution_ne_nil logs now h1)
  cases hm : calculate_wasserstein_distance b.distribution
      (currentDistribution logs now) with
  | none =>
    rw [hm] at hcw
    simp at hcw
  | some d =>
    simp only [detect_drift, hm]
    rfl

/-- C10 amended witness: non-empty baseline distribution, empty records. -/
theorem C10_detect_drift_total_witness :
    ((⟨0, [("A", 1)], 1, 1⟩ : Baseline).distribution ≠ [] ∨
        ([] : List PredictionLog) ≠ []) ∧
      (detect_drift (3/20) (some ⟨0, [("A", 1)], 1, 1⟩)
        ([] : List PredictionLog) 0).isSome :=
  ⟨Or.inl (by decide),
    C10_detect_drift_total (3/20) _ _ 0 (Or.inl (by decide))⟩

/-! Part 4: the retraining decision engine (`src/retraining.py`). -/

/-- One retraining verdict (`src/retraining.py`, dataclass
`RetrainingTrigger`). -/
structure RetrainingTrigger where
  timestamp : Nat
  triggered : Bool
  reason : String
  confidence_threshold_met : Bool
  drift_threshold_met : Bool
  min_samples_met : Bool
  recommended_action : String
deriving DecidableEq

/-- Embeds `RetrainingManager.evaluate_retraining_need` (lines 58-125).  Reason
strings keep the source's fixed prefixes (interpolated numbers elided) and
are joined with `" | "`; the fixed strings for `recommended_action` keep the
source's words with the emoji prefix elided. -/
def evaluate_retraining_need (min_samples_for_retraining : Nat)
    (confidence_threshold drift_threshold : Rat) (baseline : Option Baseline)
    (logs : List PredictionLog) (now : Nat) :
    Option (RetrainingTrigger × Option Baseline) :=
  match detect_drift drift_threshold baseline logs now with
  | none => none
  | some (drift_report, baseline2) =>
    some ({ timestamp := now
            triggered := decide (logs.length ≥ min_samples_for_retraining) &&
              (decide ((calculate_metrics logs now).average_confidence <
                  confidence_threshold) ||
                drift_report.drift_detected)
            reason :=
              if ((if decide (logs.length ≥ min_samples_for_retraining) then []
                    else ["Campioni insufficienti"]) ++
                  (if decide ((calculate_metrics logs now).average_confidence <
                      confidence_threshold) then ["Confidenza media bassa"]
                    else []) ++
                  (if drift_report.drift_detected then ["Drift rilevato"]
                    else [])).isEmpty then
                "Nessuna necessità di retraining"
              else
                String.intercalate " | "
                  ((if decide (logs.length ≥ min_samples_for_retraining) then []
                      else ["Campioni insufficienti"]) ++
                    (if decide ((calculate_metrics logs now).average_confidence <
                        confidence_threshold) then ["Confidenza media bassa"]
                      else []) ++
                    (if drift_report.drift_detected then ["Drift rilevato"]
                      else []))
            confidence_threshold_met :=
              decide ((calculate_metrics logs now).average_confidence <
                confidence_threshold)
            drift_threshold_met := drift_report.drift_detected
            min_samples_met := decide (logs.length ≥ min_samples_for_retraining)
            recommended_action :=
              if decide (logs.length ≥ min_samples_for_retraining) &&
                  (decide ((calculate_metrics logs now).average_confidence <
                      confidence_threshold) ||
                    drift_report.drift_detected) then
                "ESEGUIRE RETRAINING"
              else "CONTINUE MONITORING" },
      baseline2)

/-- C3: whenever an evaluation returns a verdict, `triggered` is exactly
`min_samples_met AND (confidence_gate OR drift_gate)`, with the volume gate
`len(records) >= min_samples` and the confidence gate
`mean_confidence < confidence_floor`; hence too few records never trigger. -/
theorem C3_retraining_formula (min_samples_for_retraining : Nat)
    (confidence_threshold drift_threshold : Rat) (baseline : Option Baseline)
    (logs : List PredictionLog) (now : Nat) (t : RetrainingTrigger)
    (b2 : Option Baseline)
    (h : evaluate_retraining_need min_samples_for_retraining
        confidence_threshold drift_threshold baseline logs now = some (t, b2)) :
    t.triggered = (t.min_samples_met &&
        (t.confidence_threshold_met || t.drift_threshold_met)) ∧
      t.min_samples_met = decide (logs.length ≥ min_samples_for_retraining) ∧
      t.confidence_threshold_met =
        decide ((calculate_metrics logs now).average_confidence <
          confidence_threshold) ∧
      (logs.length < min_samples_for_retraining → t.triggered = false) := by
  unfold evaluate_retraining_need at h
  cases hm : detect_drift drift_threshold baseline logs now with
  | none =>
    rw [hm] at h
    exact absurd h (by simp)
  | some pr =>
    rw [hm] at h
    simp only [Option.some.injEq, Prod.mk.injEq] at h
    obtain ⟨ht, _⟩ := h
    subst ht
    refine ⟨rfl, rfl, rfl, ?_⟩
    intro hlt
    have hdec : decide (logs.length ≥ min_samples_for_retraining) = false :=
      decide_eq_false (by omega)
    show (decide (logs.length ≥ min_samples_for_retraining) && _) = false
    rw [hdec, Bool.false_and]

def c3SampleLog : PredictionLog := ⟨0, "a", "Positivo", 4/5, [("Positivo", 4/5)]⟩

def c3SampleTrigger : RetrainingTrigger :=
  ⟨0, false, "Nessuna necessità di retraining", false, false, true,
    "CONTINUE MONITORING"⟩

/-- C3 witness: one record, `min_samples = 1`, bootstrap drift path. -/
theorem C3_retraining_formula_witness :
    (evaluate_retraining_need 1 (7/10) (3/20) none [c3SampleLog] 0 =
        some (c3SampleTrigger, some (set_baseline [c3SampleLog] 0))) ∧
      (c3SampleTrigger.triggered = (c3SampleTrigger.min_samples_met &&
          (c3SampleTrigger.confidence_threshold_met ||
            c3SampleTrigger.drift_threshold_met)) ∧
        c3SampleTrigger.min_samples_met = decide ([c3SampleLog].length ≥ 1) ∧
        c3SampleTrigger.confidence_threshold_met =
          decide ((calculate_metrics [c3SampleLog] 0).average_confidence <
            7/10) ∧
        ([c3SampleLog].length < 1 → c3SampleTrigger.triggered = false)) := by
  have hEq : evaluate_retraining_need 1 (7/10) (3/20) none [c3SampleLog] 0 =
      some (c3SampleTrigger, some (set_baseline [c3SampleLog] 0)) := by
    norm_num [evaluate_retraining_need, detect_drift, calculate_metrics,
      c3SampleLog, c3SampleTrigger, dedupFirst, dedupFirstAux]
  exact ⟨hEq,
    C3_retraining_formula 1 (7/10) (3/20) none [c3SampleLog] 0 _ _ hEq⟩

/-- Embeds `RetrainingManager.get_last_triggered` (lines 158-168). -/
def get_last_triggered (history : List RetrainingTrigger) :
    Option RetrainingTrigger :=
  (history.filter fun t => t.triggered).getLast?

/-- The dictionary returned by `get_retraining_statistics`; the `reasons` key
is absent (`none`) in the empty-history branch. -/
structure RetrainingStats where
  total_evaluations : Nat
  triggered_count : Nat
  trigger_rate : Rat
  last_triggered : Option Nat
  reasons : Option (List (String × Nat))
deriving DecidableEq

/-- Embeds `dict(Counter(l))`: counts keyed in first-encounter order. -/
def counterCounts (l : List String) : List (String × Nat) :=
  (dedupFirst l).map fun s => (s, l.count s)

/-- Embeds `Counter(l).most_common(n)`: stable descending sort by count, first `n`
entries (ties keep first-encounter order, like Python's stable sort). -/
def most_common (n : Nat) (l : List String) : List (String × Nat) :=
  (List.insertionSort (fun a b : String × Nat => b.2 ≤ a.2)
    (counterCounts l)).take n

/-- Embeds `RetrainingManager._get_top_reasons` (lines 202-216). -/
def get_top_reasons (triggers : List RetrainingTrigger) :
    List (String × Nat) :=
  most_common 5 ((triggers.filter fun t => t.triggered).map fun t => t.reason)

/-- Embeds `RetrainingManager.get_retraining_statistics` (lines 175-200).  Note
`last_triggered := history[-1].timestamp`: the last evaluation in the
history, triggered or not. -/
def get_retraining_statistics (history : List RetrainingTrigger) :
    RetrainingStats :=
  if history.isEmpty then
    { total_evaluations := 0
      triggered_count := 0
      trigger_rate := 0
      last_triggered := none
      reasons := none }
  else
    { total_evaluations := history.length
      triggered_count := (history.filter fun t => t.triggered).length
      trigger_rate :=
        ((history.filter fun t => t.triggered).length : Rat) / history.length
      last_triggered := history.getLast?.map fun t => t.timestamp
      reasons := some (get_top_reasons history) }

/-- C5: the code evaluated at the failing input.  A history whose only
verdict was NOT triggered yields `last_triggered = some 5` (the timestamp of
the last evaluation), although the claim — and the sibling
`get_last_triggered`, evaluated alongside — says no triggered verdict exists,
so the field should be absent. -/
theorem C5_last_triggered_of_untriggered_history :
    (get_retraining_statistics
        [⟨5, false, "Nessuna necessità di retraining", false, false, false,
          "CONTINUE MONITORING"⟩]).last_triggered = some 5 ∧
      get_last_triggered
        [⟨5, false, "Nessuna necessità di retraining", false, false, false,
          "CONTINUE MONITORING"⟩] = none := by
  constructor
  · rfl
  · rfl

/-! Part 5: the record store (`src/monitoring.py`). -/

/-- JSON values: one line of the `predictions.jsonl` store is one such value.
The textual `json.dumps`/`json.loads` pair is injective on values and is
modelled at the value level; blank lines, which the reader skips, have no
value-level counterpart. -/
inductive Json where
  | null : Json
  | bool (b : Bool) : Json
  | num (q : Rat) : Json
  | str (s : String) : Json
  | arr (elems : List Json) : Json
  | obj (fields : List (String × Json)) : Json

/-- The `scores` sub-dictionary as written by `json.dumps`. -/
def encodeScores (scores : List (String × Rat)) : List (String × Json) :=
  scores.map fun p => (p.1, Json.num p.2)

/-- Embeds `json.dumps(log_entry.to_dict())` (line 86): the value written for one
record, fields in dataclass order. -/
def encodePredictionLog (r : PredictionLog) : Json :=
  Json.obj [("timestamp", Json.num r.timestamp), ("text", Json.str r.text),
    ("sentiment", Json.str r.sentiment), ("confidence", Json.num r.confidence),
    ("scores", Json.obj (encodeScores r.scores))]

/-- A JSON number standing for an (ISO-timestamp) instant. -/
def asNat (j : Json) : Option Nat :=
  match j with
  | Json.num q => if q.den = 1 ∧ 0 ≤ q.num then some q.num.toNat else none
  | _ => none

def decodeScores : List (String × Json) → Option (List (String × Rat))
  | [] => some []
  | (k, Json.num q) :: rest => (decodeScores rest).map fun tl => (k, q) :: tl
  | _ => none

/-- Embeds `PredictionLog(**json.loads(line))` (lines 110-111): reading one stored
line back; a line not shaped like a stored record fails to decode. -/
def decodePredictionLog : Json → Option PredictionLog
  | Json.obj [("timestamp", tsj), ("text", Json.str text),
      ("sentiment", Json.str sentiment), ("confidence", Json.num confidence),
      ("scores", Json.obj kvs)] =>
    (match asNat tsj, decodeScores kvs with
     | some ts, some scores => some ⟨ts, text, sentiment, confidence, scores⟩
     | _, _ => none)
  | _ => none

/-- One step of `max(sentiment_scores, key=sentiment_scores.get)`: Python
`max` scans left to right and replaces the current maximum only on strictly
greater, keeping the first maximal key. -/
def maxStep (c n : String × Rat) : String × Rat := if n.2 > c.2 then n else c

/-- Embeds `PredictionLogger.log_prediction` (lines 56-93): picks the argmax
sentiment, reads its score back from the dict (`scores[sentiment]`, which
always finds the key, modelled with `getD 0`), builds the record and appends
its encoding to the store.  `max()` over an empty dict raises, modelled by
`none`. -/
def log_prediction (store : List Json) (text : String)
    (sentiment_scores : List (String × Rat)) (now : Nat) :
    Option (PredictionLog × List Json) :=
  match sentiment_scores with
  | [] => none
  | s0 :: rest =>
    some (⟨now, text, (rest.foldl maxStep s0).1,
        lookupD (s0 :: rest) (rest.foldl maxStep s0).1, s0 :: rest⟩,
      store ++ [encodePredictionLog ⟨now, text, (rest.foldl maxStep s0).1,
        lookupD (s0 :: rest) (rest.foldl maxStep s0).1, s0 :: rest⟩])

/-- Embeds `PredictionLogger.load_logs` (lines 95-114): decodes every stored line;
a malformed line raises `json.loads`/constructor errors and aborts the whole
load, modelled by `none`. -/
def load_logs (store : List Json) : Option (List PredictionLog) :=
  store.mapM decodePredictionLog

/-- Embeds `PredictionLogger.clear_logs` (lines 116-120): removes the whole file. -/
def clear_logs (_ : List Json) : List Json := []

theorem decodeScores_encodeScores (scores : List (String × Rat)) :
    decodeScores (encodeScores scores) = some scores := by
  induction scores with
  | nil => rfl
  | cons p l ih =>
    cases p with
    | mk k v =>
      show (decodeScores (encodeScores l)).map _ = _
      rw [ih]
      rfl

theorem asNat_natCast (n : Nat) : asNat (Json.num n) = some n := by
  simp [asNat]

theorem decode_encode (r : PredictionLog) :
    decodePredictionLog (encodePredictionLog r) = some r := by
  cases r with
  | mk ts text sentiment confidence scores =>
    simp [encodePredictionLog, decodePredictionLog, asNat_natCast,
      decodeScores_encodeScores]

/-- C6: on an empty store, logging one prediction then loading returns
exactly that one record, all fields preserved through the encode/decode
round-trip; after a clear, loading returns the empty list. -/
theorem C6_store_roundtrip (text : String) (scores : List (String × Rat))
    (now : Nat) (h : scores ≠ []) :
    ∃ r store2, log_prediction [] text scores now = some (r, store2) ∧
      load_logs store2 = some [r] ∧
      load_logs (clear_logs store2) = some [] := by
  cases scores with
  | nil => exact absurd rfl h
  | cons s0 rest =>
    refine ⟨_, _, rfl, ?_, rfl⟩
    show load_logs ([] ++ [encodePredictionLog _]) = _
    simp [load_logs, List.mapM, List.mapM.loop, decode_encode]

/-- C6 witness. -/
theorem C6_store_roundtrip_witness :
    ([("Positivo", (4 : Rat)/5)] : List (String × Rat)) ≠ [] ∧
      ∃ r store2,
        log_prediction [] "ok" [("Positivo", (4 : Rat)/5)] 0 =
            some (r, store2) ∧
          load_logs store2 = some [r] ∧
          load_logs (clear_logs store2) = some [] :=
  ⟨by decide, C6_store_roundtrip "ok" _ 0 (by decide)⟩

theorem maxFold_mem (s0 : String × Rat) (rest : List (String × Rat)) :
    rest.foldl maxStep s0 ∈ s0 :: rest := by
  induction rest generalizing s0 with
  | nil => simp
  | cons n rest ih =>
    simp only [List.foldl_cons]
    rcases List.mem_cons.1 (ih (maxStep s0 n)) with he | hm
    · rw [he, maxStep]
      by_cases hc : n.2 > s0.2
      · rw [if_pos hc]
        exact List.mem_cons.2 (Or.inr (List.mem_cons_self _ _))
      · rw [if_neg hc]
        exact List.mem_cons_self _ _
    · exact List.mem_cons.2 (Or.inr (List.mem_cons.2 (Or.inr hm)))

theorem maxFold_ge (s0 : String × Rat) (rest : List (String × Rat)) :
    ∀ p ∈ s0 :: rest, p.2 ≤ (rest.foldl maxStep s0).2 := by
  induction rest generalizing s0 with
  | nil =>
    intro p hp
    have hp2 : p = s0 := by simpa using hp
    rw [hp2]
    exact le_refl _
  | cons n rest ih =>
    intro p hp
    simp only [List.foldl_cons]
    have hstep : s0.2 ≤ (maxStep s0 n).2 ∧ n.2 ≤ (maxStep s0 n).2 := by
      rw [maxStep]
      by_cases hc : n.2 > s0.2
      · rw [if_pos hc]
        exact ⟨le_of_lt hc, le_refl _⟩
      · rw [if_neg hc]
        exact ⟨le_refl _, le_of_not_lt hc⟩
    rcases List.mem_cons.1 hp with he | hp2
    · rw [he]
      exact le_trans hstep.1 (ih (maxStep s0 n) _ (List.mem_cons_self _ _))
    · rcases List.mem_cons.1 hp2 with he | hp3
      · rw [he]
        exact le_trans hstep.2 (ih (maxStep s0 n) _ (List.mem_cons_self _ _))
      · exact ih (maxStep s0 n) p (List.mem_cons.2 (Or.inr hp3))

theorem lookup_of_mem_nodup :
    ∀ (l : List (String × Rat)) (p : String × Rat), p ∈ l →
      (l.map Prod.fst).Nodup → l.lookup p.1 = some p.2
  | [], p, hmem, _ => absurd hmem (List.not_mem_nil _)
  | q :: l, p, hmem, hnodup => by
    rcases List.mem_cons.1 hmem with rfl | hm
    · simp [List.lookup]
    · have hkey : (p.1 == q.1) = false := by
        refine beq_false_of_ne ?_
        intro he
        rw [List.map_cons, List.nodup_cons] at hnodup
        exact hnodup.1 (he ▸ List.mem_map.2 ⟨p, hm, rfl⟩)
      rw [List.lookup, hkey]
      exact lookup_of_mem_nodup l p hm
        (by rw [List.map_cons, List.nodup_cons] at hnodup; exact hnodup.2)

/-- C9: a record built by `log_prediction` from a non-empty scores dict with
distinct keys and values in [0, 1] stores the scores unchanged, its
`predicted_label` is an argmax key, and its `confidence` is that key's score,
lying in [0, 1]. -/
theorem C9_argmax_invariants (store : List Json) (text : String)
    (scores : List (String × Rat)) (now : Nat)
    (hne : scores ≠ []) (hnodup : (scores.map Prod.fst).Nodup)
    (hrange : ∀ p ∈ scores, 0 ≤ p.2 ∧ p.2 ≤ 1) :
    ∃ r store2, log_prediction store text scores now = some (r, store2) ∧
      r.scores = scores ∧
      scores.lookup r.sentiment = some r.confidence ∧
      (∀ p ∈ scores, p.2 ≤ r.confidence) ∧
      0 ≤ r.confidence ∧ r.confidence ≤ 1 := by
  cases scores with
  | nil => exact absurd rfl hne
  | cons s0 rest =>
    have hmem := maxFold_mem s0 rest
    have hlookup := lookup_of_mem_nodup (s0 :: rest) _ hmem hnodup
    have hconf : lookupD (s0 :: rest) (rest.foldl maxStep s0).1 =
        (rest.foldl maxStep s0).2 := by
      rw [lookupD, hlookup]
      rfl
    refine ⟨_, _, rfl, rfl, ?_, ?_, ?_, ?_⟩
    · show (s0 :: rest).lookup (rest.foldl maxStep s0).1 =
        some (lookupD (s0 :: rest) (rest.foldl maxStep s0).1)
      rw [hconf, hlookup]
    · intro p hp
      show p.2 ≤ lookupD (s0 :: rest) (rest.foldl maxStep s0).1
      rw [hconf]
      exact maxFold_ge s0 rest p hp
    · show (0 : Rat) ≤ lookupD (s0 :: rest) (rest.foldl maxStep s0).1
      rw [hconf]
      exact (hrange _ hmem).1
    · show lookupD (s0 :: rest) (rest.foldl maxStep s0).1 ≤ 1
      rw [hconf]
      exact (hrange _ hmem).2

/-- C9 witness: two classes, distinct keys, values in range. -/
theorem C9_argmax_invariants_witness :
    ([("Positivo", (4 : Rat)/5), ("Negativo", (1 : Rat)/5)] :
        List (String × Rat)) ≠ [] ∧
      (([("Positivo", (4 : Rat)/5), ("Negativo", (1 : Rat)/5)].map
          Prod.fst).Nodup) ∧
      (∀ p ∈ ([("Positivo", (4 : Rat)/5), ("Negativo", (1 : Rat)/5)] :
          List (String × Rat)), 0 ≤ p.2 ∧ p.2 ≤ 1) ∧
      ∃ r store2,
        log_prediction [] "ok"
            [("Positivo", (4 : Rat)/5), ("Negativo", (1 : Rat)/5)] 0 =
          some (r, store2) ∧
        r.scores = [("Positivo", (4 : Rat)/5), ("Negativo", (1 : Rat)/5)] ∧
        [("Positivo", (4 : Rat)/5), ("Negativo", (1 : Rat)/5)].lookup
            r.sentiment = some r.confidence ∧
        (∀ p ∈ ([("Positivo", (4 : Rat)/5), ("Negativo", (1 : Rat)/5)] :
            List (String × Rat)), p.2 ≤ r.confidence) ∧
        0 ≤ r.confidence ∧ r.confidence ≤ 1 := by
  have hnodup : (([("Positivo", (4 : Rat)/5), ("Negativo", (1 : Rat)/5)] :
      List (String × Rat)).map Prod.fst).Nodup := by
    simp
  have hrange : ∀ p ∈ ([("Positivo", (4 : Rat)/5), ("Negativo", (1 : Rat)/5)] :
      List (String × Rat)), 0 ≤ p.2 ∧ p.2 ≤ 1 := by
    intro p hp
    rcases List.mem_cons.1 hp with rfl | hp2
    · constructor <;> norm_num
    · have hp3 : p = ("Negativo", (1 : Rat)/5) := by simpa using hp2
      rw [hp3]
      constructor <;> norm_num
  exact ⟨by simp, hnodup, hrange,
    C9_argmax_invariants [] "ok" _ 0 (by simp) hnodup hrange⟩

end MLOpsEx
